import Mathlib

/-!
Verification of the deposit-detection and idempotent-dispatch pipeline of the
centralized-LST backend (`BlockchainMonitor` in `src/services/blockchain-monitor.ts`,
together with `TransactionHandler.handleDeposit`).

The embedding below follows the TypeScript source.  JavaScript truthiness on the
fields the code actually tests is modelled explicitly: a missing object is
`Option.none`, a missing string falls back through `||` to `""` (the code treats
the empty string as "no signature"), `meta.err` truthiness is a `Bool`, and the
`processedSignatures : Set<string>` is a duplicate-free list in insertion order
(JavaScript `Set` iterates in insertion order; `values().next().value` is the
oldest element).
-/

/-- The decoded `parsed.info` object of a system-program instruction:
`destination`, `source` and `lamports` fields. -/
structure ParsedInfo where
  destination : String
  source : String
  lamports : Nat
deriving DecidableEq, Repr

/-- The decoded `parsed` object of an instruction: its `type` tag (the code
compares it with the string "transfer") and the possibly missing `info`
object (the code tests `parsed?.info` for truthiness). -/
structure ParsedInstr where
  ty : String
  info : Option ParsedInfo
deriving DecidableEq, Repr

/-- One instruction of a raw transaction record: the program id as the string
the code obtains from `instruction?.programId?.toString?.() || instruction?.programId || ""`,
and the possibly missing `parsed` object. -/
structure Instruction where
  programId : String
  parsed : Option ParsedInstr
deriving DecidableEq, Repr

/-- One group of `meta.innerInstructions`; its `instructions` field may be
missing (the code tests `if (group.instructions)` before pushing). -/
structure InnerGroup where
  instructions : Option (List Instruction)
deriving DecidableEq, Repr

/-- The `meta` object of a record: the truthiness of `meta.err` and the
`meta.innerInstructions` list (the code reads `transaction?.meta?.innerInstructions || []`). -/
structure TxMeta where
  err : Bool
  innerInstructions : List InnerGroup
deriving DecidableEq, Repr

/-- The `transaction.message` object, holding the top-level instruction list. -/
structure TxMessage where
  instructions : List Instruction
deriving DecidableEq, Repr

/-- The nested `transaction` object of a record: its `signatures` array and its
`message`. -/
structure InnerTx where
  signatures : List String
  message : TxMessage
deriving DecidableEq, Repr

/-- A raw transaction record as `handleIncomingTransaction` receives it, from
either the push path or the polling path.  Every field the code dereferences
with `?.` is an `Option`. -/
structure RawTransaction where
  transaction : Option InnerTx
  signatures : Option (List String)
  signature : Option String
  meta : Option TxMeta
deriving DecidableEq, Repr

/-- JavaScript `||` on strings where the empty string is the only falsy value
that arises from the code's fallback chain. -/
def jsOrS (a b : String) : String := if a = "" then b else a

/-- Signature extraction, from
`transaction?.transaction?.signatures?.[0] || transaction?.signatures?.[0] || transaction?.signature || ""`. -/
def extractSignature (tx : RawTransaction) : String :=
  jsOrS (((tx.transaction.map InnerTx.signatures).getD []).headD "")
    (jsOrS ((tx.signatures.getD []).headD "") (tx.signature.getD ""))

/-- Truthiness of `meta && meta.err`: the code skips the record only when the
`meta` object exists and its `err` field is truthy. -/
def metaErr (tx : RawTransaction) : Bool :=
  match tx.meta with
  | some m => m.err
  | none => false

/-- `transaction?.transaction?.message?.instructions || []`. -/
def mainInstrs (tx : RawTransaction) : List Instruction :=
  ((tx.transaction.map fun t => t.message.instructions).getD [])

/-- The instructions collected from `transaction?.meta?.innerInstructions || []`:
for each group, `if (group.instructions) allInstructions.push(...group.instructions)`. -/
def innerInstrs (tx : RawTransaction) : List Instruction :=
  ((tx.meta.map TxMeta.innerInstructions).getD []).flatMap fun g =>
    g.instructions.getD []

/-- The full scan list: top-level instructions first, then the inner groups in
order (`allInstructions.push(...mainInstructions)` then the group loop). -/
def allInstrs (tx : RawTransaction) : List Instruction :=
  mainInstrs tx ++ innerInstrs tx

/-- The system program id the code compares against
(`"11111111111111111111111111111111"`). -/
def systemProgramId : String := "11111111111111111111111111111111"

/-- The outcome of the instruction loop: either the `parsed.info` of the first
system transfer whose destination is the monitored address (the code then
dispatches and returns), or no match together with the final value of the
`foundTransfer` flag. -/
inductive ScanResult where
  | matched (info : ParsedInfo)
  | noMatch (foundTransfer : Bool)
deriving DecidableEq, Repr

/-- The instruction loop of `handleIncomingTransaction`: for each instruction,
if `programId` is the system program and `parsed?.type === "transfer" && parsed?.info`,
set `foundTransfer`; if additionally `destination === config.depositAddress`,
stop with that `info` (the code dispatches and returns there). -/
def scanInstructions (depositAddress : String) :
    List Instruction → Bool → ScanResult
  | [], found => .noMatch found
  | i :: rest, found =>
    if i.programId = systemProgramId then
      match i.parsed with
      | some p =>
        if p.ty = "transfer" then
          match p.info with
          | some info =>
            if info.destination = depositAddress then .matched info
            else scanInstructions depositAddress rest true
          | none => scanInstructions depositAddress rest found
        else scanInstructions depositAddress rest found
      | none => scanInstructions depositAddress rest found
    else scanInstructions depositAddress rest found

/-- Whether an instruction is a system transfer to the monitored address — the
exact condition under which the loop dispatches on it. -/
def isMatchingTransfer (depositAddress : String) (i : Instruction) : Bool :=
  i.programId = systemProgramId &&
    match i.parsed with
    | some p =>
      p.ty = "transfer" &&
        match p.info with
        | some info => info.destination = depositAddress
        | none => false
    | none => false

/-- The pure extraction function induced by `handleIncomingTransaction`'s
branches: `none` when `meta && meta.err`, else the `parsed.info` of the first
matching transfer found by the scan, else `none`. -/
def extract (depositAddress : String) (tx : RawTransaction) : Option ParsedInfo :=
  if metaErr tx then none
  else
    match scanInstructions depositAddress (allInstrs tx) false with
    | .matched info => some info
    | .noMatch _ => none

/-- The record passed to `transactionHandler.handleDeposit`:
`{ signature, userPublicKey: source, amount: lamports, timestamp }` (the
timestamp is wall-clock `Date.now()` and is not modelled). -/
structure DepositEvent where
  signature : String
  userPublicKey : String
  amount : Nat
deriving DecidableEq, Repr

/-- The mutable state of one `BlockchainMonitor` relevant to dispatch:
`processedSignatures` as a duplicate-free insertion-ordered list, the sequence
of `handleDeposit` invocations made so far, and the sequence of handler
failures logged by the `catch` around `handleDeposit`. -/
structure MonitorState where
  processedSignatures : List String
  dispatched : List DepositEvent
  failureLog : List DepositEvent
deriving DecidableEq, Repr

/-- `Set.add`: a no-op when the element is present, otherwise appended at the
end of the insertion order. -/
def setAdd (s : List String) (x : String) : List String :=
  if x ∈ s then s else s ++ [x]

/-- The cleanup after a dispatch-path insertion:
`if (size > 1000) delete(values().next().value)` — when the set holds more than
1000 entries, remove the oldest-inserted one. -/
def trimLedger (s : List String) : List String :=
  if s.length > 1000 then s.drop 1 else s

/-- `handleIncomingTransaction` (the draft with backup polling), as a state
transformer.  `handlerFails` is an oracle telling whether the external
`handleDeposit` call rejects for a given event; the code catches that rejection
and only logs it, so the stored state is the same either way apart from the
failure log. -/
def handleIncomingTransaction (depositAddress : String)
    (handlerFails : DepositEvent → Bool) (st : MonitorState)
    (tx : RawTransaction) : MonitorState :=
  let signature := extractSignature tx
  if signature = "" then st
  else if signature ∈ st.processedSignatures then st
  else if metaErr tx then
    { st with processedSignatures := setAdd st.processedSignatures signature }
  else
    match scanInstructions depositAddress (allInstrs tx) false with
    | .matched info =>
      let e : DepositEvent :=
        { signature := signature, userPublicKey := info.source,
          amount := info.lamports }
      { processedSignatures := trimLedger (setAdd st.processedSignatures signature)
        dispatched := st.dispatched ++ [e]
        failureLog := if handlerFails e then st.failureLog ++ [e] else st.failureLog }
    | .noMatch true => st
    | .noMatch false =>
      { st with processedSignatures := setAdd st.processedSignatures signature }

/-- One candidate delivery on the polling path: the tick skips a signature
already in `processedSignatures` (`continue`), otherwise fetches the record and
feeds it to `handleIncomingTransaction`. -/
def pollDeliver (depositAddress : String) (handlerFails : DepositEvent → Bool)
    (st : MonitorState) (sig : String) (tx : RawTransaction) : MonitorState :=
  if sig ∈ st.processedSignatures then st
  else handleIncomingTransaction depositAddress handlerFails st tx

/-- Sequential processing of a list of incoming records. -/
def processAll (depositAddress : String) (handlerFails : DepositEvent → Bool)
    (st : MonitorState) (txs : List RawTransaction) : MonitorState :=
  txs.foldl (handleIncomingTransaction depositAddress handlerFails) st

/-- Number of handler invocations carrying a given signature. -/
def sigCount (s : String) (l : List DepositEvent) : Nat :=
  l.countP fun e => e.signature = s

/-!
Lifecycle model for `startHeliusMonitoring` / `reconnect` / `stop`.

The monitor's lifecycle fields are `ws`, `isReconnecting` and
`pollingInterval`; `reconnect()` schedules a bare `setTimeout` whose handle is
never stored anywhere.  The model tracks whether a live socket exists, whether
the `isReconnecting` flag is set, whether the interval stored in
`pollingInterval` is still live, and whether a reconnect timeout is pending.
Asynchronous callbacks of the runtime are explicit events: `ws.close()` makes
the socket's `close` event fire later, and a scheduled `setTimeout` makes the
reconnect timer fire later.
-/

/-- Lifecycle state of the monitor: a live websocket, the `isReconnecting`
guard flag, a live polling interval, and a pending (unstored) reconnect
timeout. -/
structure LifecycleState where
  wsActive : Bool
  isReconnecting : Bool
  pollingActive : Bool
  reconnectPending : Bool
deriving DecidableEq, Repr

/-- `reconnect()`: `if (isReconnecting) return;` else set the flag and schedule
`setTimeout(..., 5000)` — the timeout handle is not stored. -/
def reconnectStep (st : LifecycleState) : LifecycleState :=
  if st.isReconnecting then st
  else { st with isReconnecting := true, reconnectPending := true }

/-- The socket's `close` event handler: it calls `reconnect()`.  The `error`
handler does the same. -/
def wsCloseEvent (st : LifecycleState) : LifecycleState :=
  reconnectStep st

/-- `startHeliusMonitoring()`: construct a new websocket and start the backup
polling interval (the `open` handler will clear `isReconnecting` when it
fires). -/
def startMonitoringStep (st : LifecycleState) : LifecycleState :=
  { st with wsActive := true, pollingActive := true }

/-- The `open` event handler of a freshly created socket: it resets the
`isReconnecting` flag. -/
def wsOpenEvent (st : LifecycleState) : LifecycleState :=
  { st with isReconnecting := false }

/-- The pending reconnect timeout fires: the scheduled callback calls
`startHeliusMonitoring()`. -/
def reconnectTimerFires (st : LifecycleState) : LifecycleState :=
  if st.reconnectPending then
    startMonitoringStep { st with reconnectPending := false }
  else st

/-- `stop()`: `if (ws) ws.close(); if (pollingInterval) clearInterval(...)`.
Closing the socket ends it (its `close` event will still be delivered later),
and the interval is cleared.  No field touches `reconnectPending`: the code
holds no handle to the reconnect timeout, so it cannot cancel it. -/
def stopStep (st : LifecycleState) : LifecycleState :=
  { st with wsActive := false, pollingActive := false }

/-- A monitor in steady state: connected, subscribed, polling, no reconnect in
flight. -/
def runningLifecycle : LifecycleState :=
  { wsActive := true, isReconnecting := false, pollingActive := true,
    reconnectPending := false }

/-!
Scheduling model for the backup-polling timer.

`startBackupPolling` installs `setInterval(async () => { ... }, 5000)`.  The
callback body begins executing on every timer fire: the class holds no flag
recording whether a previous tick is still running, and the callback's first
statements consult nothing before starting its fetches, so the runtime starts
a new tick unconditionally whenever the interval elapses.  An in-flight tick
(awaiting its fetches) does not block the event loop, so it does not delay the
next fire either.  The model counts ticks that have started and not yet
finished.
-/

/-- Number of polling ticks currently in flight. -/
structure PollState where
  activeTicks : Nat
deriving DecidableEq, Repr

/-- Events of the polling scheduler: the interval elapses (the runtime invokes
the callback), or one in-flight tick's async body completes. -/
inductive PollEv where
  | fire
  | finish
deriving DecidableEq, Repr

/-- One scheduler step: a `fire` starts the callback unconditionally (the code
has no guard that could skip it); a `finish` retires one in-flight tick. -/
def pollStep (st : PollState) : PollEv → PollState
  | .fire => { activeTicks := st.activeTicks + 1 }
  | .finish => { activeTicks := st.activeTicks - 1 }

/-- A sequence of scheduler events. -/
def pollRun (st : PollState) (evs : List PollEv) : PollState :=
  evs.foldl pollStep st

/-!  Helper lemmas about the embedded operations.  -/

/-- A record whose signature is already in the ledger leaves the state
untouched: the dedup check returns before any other branch. -/
theorem handleIncomingTransaction_skip (addr : String) (hf : DepositEvent → Bool)
    (st : MonitorState) (tx : RawTransaction)
    (h : extractSignature tx ∈ st.processedSignatures) :
    handleIncomingTransaction addr hf st tx = st := by
  unfold handleIncomingTransaction
  by_cases h0 : extractSignature tx = ""
  · simp [h0]
  · simp [h0, h]

/-- Inversion for the extraction function: it yields an event exactly when the
record succeeded and the scan found a matching transfer. -/
theorem extract_eq_some (addr : String) (tx : RawTransaction) (i : ParsedInfo) :
    extract addr tx = some i ↔
      metaErr tx = false ∧
        scanInstructions addr (allInstrs tx) false = .matched i := by
  unfold extract
  cases h : metaErr tx
  · simp only [Bool.false_eq_true, if_false, true_and]
    cases hs : scanInstructions addr (allInstrs tx) false <;> simp
  · simp

/-- A freshly appended signature survives the capacity trim: the trim only ever
removes the oldest entry, which the fresh signature is not. -/
theorem mem_trimLedger_self (l : List String) (s : String) :
    s ∈ trimLedger (l ++ [s]) := by
  unfold trimLedger
  split
  · next h =>
    cases l with
    | nil => simp at h
    | cons a t => simp
  · simp

/-- Full characterisation of a dispatching step: a fresh, successful, matching
record appends the signature (then trims), appends the handler invocation, and
logs a failure exactly when the handler rejects. -/
theorem handleIncomingTransaction_matched (addr : String) (hf : DepositEvent → Bool)
    (st : MonitorState) (tx : RawTransaction) (i : ParsedInfo) (s : String)
    (hsig : extractSignature tx = s) (hne : s ≠ "")
    (hfresh : s ∉ st.processedSignatures)
    (hex : extract addr tx = some i) :
    handleIncomingTransaction addr hf st tx =
      { processedSignatures := trimLedger (st.processedSignatures ++ [s])
        dispatched := st.dispatched ++
          [{ signature := s, userPublicKey := i.source, amount := i.lamports }]
        failureLog :=
          if hf { signature := s, userPublicKey := i.source, amount := i.lamports } then
            st.failureLog ++
              [{ signature := s, userPublicKey := i.source, amount := i.lamports }]
          else st.failureLog } := by
  obtain ⟨herr, hscan⟩ := (extract_eq_some addr tx i).mp hex
  unfold handleIncomingTransaction
  simp [hsig, hne, hfresh, herr, hscan, setAdd]

/-- A successful record with a fresh signature and no transfer instruction at
all only records the signature (with no capacity trim). -/
theorem handleIncomingTransaction_noTransfer (addr : String) (hf : DepositEvent → Bool)
    (st : MonitorState) (tx : RawTransaction) (s : String)
    (hsig : extractSignature tx = s) (hne : s ≠ "")
    (hfresh : s ∉ st.processedSignatures) (herr : metaErr tx = false)
    (hscan : scanInstructions addr (allInstrs tx) false = .noMatch false) :
    handleIncomingTransaction addr hf st tx =
      { st with processedSignatures := st.processedSignatures ++ [s] } := by
  unfold handleIncomingTransaction
  simp [hsig, hne, hfresh, herr, hscan, setAdd]

/-- A failed record (`meta.err` truthy) with a fresh signature only records the
signature (with no capacity trim). -/
theorem handleIncomingTransaction_err (addr : String) (hf : DepositEvent → Bool)
    (st : MonitorState) (tx : RawTransaction) (s : String)
    (hsig : extractSignature tx = s) (hne : s ≠ "")
    (hfresh : s ∉ st.processedSignatures) (herr : metaErr tx = true) :
    handleIncomingTransaction addr hf st tx =
      { st with processedSignatures := st.processedSignatures ++ [s] } := by
  unfold handleIncomingTransaction
  simp [hsig, hne, hfresh, herr, setAdd]

/-- A successful record whose scan found a transfer instruction but no match
for the monitored address leaves the state untouched — in particular the
signature is NOT recorded. -/
theorem handleIncomingTransaction_foundNoMatch (addr : String) (hf : DepositEvent → Bool)
    (st : MonitorState) (tx : RawTransaction) (s : String)
    (hsig : extractSignature tx = s) (hne : s ≠ "")
    (hfresh : s ∉ st.processedSignatures) (herr : metaErr tx = false)
    (hscan : scanInstructions addr (allInstrs tx) false = .noMatch true) :
    handleIncomingTransaction addr hf st tx = st := by
  unfold handleIncomingTransaction
  simp [hsig, hne, hfresh, herr, hscan]

/-- Appending an invocation with the counted signature raises the count by
one. -/
theorem sigCount_append_self (s : String) (l : List DepositEvent) (e : DepositEvent)
    (h : e.signature = s) :
    sigCount s (l ++ [e]) = sigCount s l + 1 := by
  simp [sigCount, List.countP_append, List.countP_cons, h]

/-- The scan returns the first matching transfer: instructions before the match
that are not matching transfers are passed over (whatever they do to the
`foundTransfer` flag), and instructions after it are never reached. -/
theorem scanInstructions_first_match (addr : String) (pre suf : List Instruction)
    (m : Instruction) (i : ParsedInfo)
    (hpre : ∀ p ∈ pre, isMatchingTransfer addr p = false)
    (hm : m.programId = systemProgramId)
    (hparsed : m.parsed = some { ty := "transfer", info := some i })
    (hdest : i.destination = addr) :
    ∀ b, scanInstructions addr (pre ++ m :: suf) b = .matched i := by
  induction pre with
  | nil =>
    intro b
    simp [scanInstructions, hm, hparsed, hdest]
  | cons p ps ih =>
    have hps : ∀ q ∈ ps, isMatchingTransfer addr q = false := by
      intro q hq; exact hpre q (List.mem_cons_of_mem p hq)
    have hp : isMatchingTransfer addr p = false := hpre p (List.mem_cons_self p ps)
    have ih' := ih hps
    intro b
    rw [List.cons_append]
    by_cases h1 : p.programId = systemProgramId
    · cases hq : p.parsed with
      | none => simp [scanInstructions, h1, hq, ih']
      | some q =>
        by_cases h3 : q.ty = "transfer"
        · cases hi : q.info with
          | none => simp [scanInstructions, h1, hq, h3, hi, ih']
          | some info =>
            by_cases h5 : info.destination = addr
            · exfalso
              rw [isMatchingTransfer, hq] at hp
              simp [h1, h3, hi, h5] at hp
            · simp [scanInstructions, h1, hq, h3, hi, h5, ih']
        · simp [scanInstructions, h1, hq, h3, ih']
    · simp [scanInstructions, h1, ih']

/-- A successful scan yields the info of a matching transfer present in the
scanned list: its destination is the monitored address and some scanned
instruction is a system-program "transfer" carrying exactly that info. -/
theorem scanInstructions_matched_sound (addr : String) :
    ∀ (l : List Instruction) (b : Bool) (i : ParsedInfo),
      scanInstructions addr l b = .matched i →
        i.destination = addr ∧
          ∃ instr ∈ l, instr.programId = systemProgramId ∧
            instr.parsed = some { ty := "transfer", info := some i } := by
  intro l
  induction l with
  | nil => intro b i h; simp [scanInstructions] at h
  | cons p ps ih =>
    intro b i h
    by_cases h1 : p.programId = systemProgramId
    · cases hq : p.parsed with
      | none =>
        simp only [scanInstructions, h1, if_pos, hq] at h
        obtain ⟨hd, instr, hmem, hrest⟩ := ih b i h
        exact ⟨hd, instr, List.mem_cons_of_mem p hmem, hrest⟩
      | some q =>
        by_cases h3 : q.ty = "transfer"
        · cases hi : q.info with
          | none =>
            simp only [scanInstructions, h1, if_pos, hq, h3, if_true, hi] at h
            obtain ⟨hd, instr, hmem, hrest⟩ := ih b i h
            exact ⟨hd, instr, List.mem_cons_of_mem p hmem, hrest⟩
          | some info =>
            by_cases h5 : info.destination = addr
            · simp only [scanInstructions, h1, if_pos, hq, h3, if_true, hi, h5] at h
              cases h
              refine ⟨h5, p, List.mem_cons_self p ps, h1, ?_⟩
              rw [hq]
              cases q
              simp_all
            · simp only [scanInstructions, h1, if_pos, hq, h3, if_true, hi, h5,
                if_false] at h
              obtain ⟨hd, instr, hmem, hrest⟩ := ih true i h
              exact ⟨hd, instr, List.mem_cons_of_mem p hmem, hrest⟩
        · simp only [scanInstructions, h1, if_pos, hq, h3, if_false] at h
          obtain ⟨hd, instr, hmem, hrest⟩ := ih b i h
          exact ⟨hd, instr, List.mem_cons_of_mem p hmem, hrest⟩
    · simp only [scanInstructions, h1, if_false] at h
      obtain ⟨hd, instr, hmem, hrest⟩ := ih b i h
      exact ⟨hd, instr, List.mem_cons_of_mem p hmem, hrest⟩

/-!  Concrete fixtures used by witnesses and counterexamples.  -/

/-- The configured monitored deposit address of the test fixtures. -/
def monAddr : String := "DepositAddr1111111111111111111111"

/-- A sender address used by the test fixtures. -/
def senderA : String := "SenderAddr11111111111111111111111"

/-- A parsed system-program transfer instruction. -/
def transferInstr (dest src : String) (lam : Nat) : Instruction :=
  { programId := systemProgramId,
    parsed := some { ty := "transfer",
                     info := some { destination := dest, source := src, lamports := lam } } }

/-- A successful record carrying one top-level transfer of `lam` lamports from
`senderA` to the monitored address. -/
def depositTx (sig : String) (lam : Nat) : RawTransaction :=
  { transaction := some { signatures := [sig],
                          message := { instructions := [transferInstr monAddr senderA lam] } },
    signatures := none, signature := none,
    meta := some { err := false, innerInstructions := [] } }

/-- The initial state of a freshly constructed monitor. -/
def emptyState : MonitorState :=
  { processedSignatures := [], dispatched := [], failureLog := [] }

/-- A handler oracle that always resolves. -/
def neverFails : DepositEvent → Bool := fun _ => false

/-- A handler oracle that always rejects. -/
def alwaysFails : DepositEvent → Bool := fun _ => true

/-!  The claims.  -/

/-- C1: a signature delivered twice — once via the push path and once via the
polling path, in either order — invokes the handler exactly once; the second
delivery leaves the state untouched (a silent no-op, not an error). -/
theorem claim_C1_exactly_once (addr s : String) (hf : DepositEvent → Bool)
    (st : MonitorState) (pushTx pollTx : RawTransaction) (i1 i2 : ParsedInfo)
    (hne : s ≠ "")
    (h1 : extractSignature pushTx = s) (h2 : extractSignature pollTx = s)
    (he1 : extract addr pushTx = some i1) (he2 : extract addr pollTx = some i2)
    (hfresh : s ∉ st.processedSignatures) :
    pollDeliver addr hf (handleIncomingTransaction addr hf st pushTx) s pollTx =
      handleIncomingTransaction addr hf st pushTx ∧
    handleIncomingTransaction addr hf (pollDeliver addr hf st s pollTx) pushTx =
      pollDeliver addr hf st s pollTx ∧
    sigCount s
        (pollDeliver addr hf (handleIncomingTransaction addr hf st pushTx) s pollTx).dispatched =
      sigCount s st.dispatched + 1 ∧
    sigCount s
        (handleIncomingTransaction addr hf (pollDeliver addr hf st s pollTx) pushTx).dispatched =
      sigCount s st.dispatched + 1 := by
  have hpush := handleIncomingTransaction_matched addr hf st pushTx i1 s h1 hne hfresh he1
  have hmem1 : s ∈ (handleIncomingTransaction addr hf st pushTx).processedSignatures := by
    rw [hpush]; exact mem_trimLedger_self _ _
  have hpollFirst : pollDeliver addr hf st s pollTx =
      handleIncomingTransaction addr hf st pollTx := by
    simp [pollDeliver, hfresh]
  have hpoll := handleIncomingTransaction_matched addr hf st pollTx i2 s h2 hne hfresh he2
  have hmem2 : s ∈ (pollDeliver addr hf st s pollTx).processedSignatures := by
    rw [hpollFirst, hpoll]; exact mem_trimLedger_self _ _
  refine ⟨?_, ?_, ?_, ?_⟩
  · simp [pollDeliver, hmem1]
  · exact handleIncomingTransaction_skip addr hf _ pushTx (by rw [h1]; exact hmem2)
  · rw [show pollDeliver addr hf (handleIncomingTransaction addr hf st pushTx) s pollTx =
        handleIncomingTransaction addr hf st pushTx by simp [pollDeliver, hmem1]]
    rw [hpush]
    exact sigCount_append_self s st.dispatched _ rfl
  · rw [handleIncomingTransaction_skip addr hf _ pushTx (by rw [h1]; exact hmem2)]
    rw [hpollFirst, hpoll]
    exact sigCount_append_self s st.dispatched _ rfl

/-- C1 witness: the same deposit record delivered via push and then via poll
from the initial state invokes the handler exactly once. -/
theorem claim_C1_witness :
    pollDeliver monAddr neverFails
        (handleIncomingTransaction monAddr neverFails emptyState (depositTx "sigA" 200))
        "sigA" (depositTx "sigA" 200) =
      handleIncomingTransaction monAddr neverFails emptyState (depositTx "sigA" 200) ∧
    sigCount "sigA"
        (pollDeliver monAddr neverFails
          (handleIncomingTransaction monAddr neverFails emptyState (depositTx "sigA" 200))
          "sigA" (depositTx "sigA" 200)).dispatched =
      sigCount "sigA" emptyState.dispatched + 1 := by
  have h := claim_C1_exactly_once monAddr "sigA" neverFails emptyState
    (depositTx "sigA" 200) (depositTx "sigA" 200)
    { destination := monAddr, source := senderA, lamports := 200 }
    { destination := monAddr, source := senderA, lamports := 200 }
    (by decide) (by decide) (by decide) (by decide) (by decide) (by decide)
  exact ⟨h.1, h.2.2.1⟩

/-- C2: when extraction yields an event, that event's amount is exactly the
`lamports` field of a system-program transfer instruction present in the
record, its source is that instruction's sender, and the handler is invoked
with exactly those values. -/
theorem claim_C2_extracted_values (addr s : String) (hf : DepositEvent → Bool)
    (st : MonitorState) (tx : RawTransaction) (i : ParsedInfo)
    (hsig : extractSignature tx = s) (hne : s ≠ "")
    (hfresh : s ∉ st.processedSignatures)
    (hex : extract addr tx = some i) (hA : 0 < i.lamports) :
    (∃ instr ∈ allInstrs tx, instr.programId = systemProgramId ∧
      instr.parsed = some { ty := "transfer", info := some i }) ∧
    i.destination = addr ∧
    (handleIncomingTransaction addr hf st tx).dispatched =
      st.dispatched ++
        [{ signature := s, userPublicKey := i.source, amount := i.lamports }] := by
  obtain ⟨herr, hscan⟩ := (extract_eq_some addr tx i).mp hex
  obtain ⟨hdest, hwit⟩ := scanInstructions_matched_sound addr (allInstrs tx) false i hscan
  refine ⟨hwit, hdest, ?_⟩
  rw [handleIncomingTransaction_matched addr hf st tx i s hsig hne hfresh hex]

/-- C2 witness: a 100000000-lamport deposit record dispatches exactly that
amount and sender. -/
theorem claim_C2_witness :
    (∃ instr ∈ allInstrs (depositTx "sigB" 100000000),
      instr.programId = systemProgramId ∧
      instr.parsed = some { ty := "transfer",
                            info := some { destination := monAddr, source := senderA, lamports := 100000000 } }) ∧
    monAddr = monAddr ∧
    (handleIncomingTransaction monAddr neverFails emptyState
        (depositTx "sigB" 100000000)).dispatched =
      emptyState.dispatched ++
        [{ signature := "sigB", userPublicKey := senderA, amount := 100000000 }] := by
  have h := claim_C2_extracted_values monAddr "sigB" neverFails emptyState
    (depositTx "sigB" 100000000)
    { destination := monAddr, source := senderA, lamports := 100000000 }
    (by decide) (by decide) (by decide) (by decide) (by decide)
  exact h

/-- C3: a record whose execution result indicates failure extracts to nothing
and never reaches the handler, even if its instruction list contains a
matching transfer. -/
theorem claim_C3_failed_tx (addr : String) (hf : DepositEvent → Bool)
    (st : MonitorState) (tx : RawTransaction)
    (herr : metaErr tx = true) :
    extract addr tx = none ∧
    (handleIncomingTransaction addr hf st tx).dispatched = st.dispatched := by
  constructor
  · simp [extract, herr]
  · unfold handleIncomingTransaction
    by_cases h0 : extractSignature tx = ""
    · simp [h0]
    · by_cases h1 : extractSignature tx ∈ st.processedSignatures
      · simp [h0, h1]
      · simp [h0, h1, herr]

/-- A failed record (`meta.err` truthy) that nonetheless contains a matching
transfer instruction. -/
def failedDepositTx : RawTransaction :=
  { transaction := some { signatures := ["sigF"],
                          message := { instructions := [transferInstr monAddr senderA 300] } },
    signatures := none, signature := none,
    meta := some { err := true, innerInstructions := [] } }

/-- C3 witness: the failed record with a matching transfer extracts to nothing
and dispatches nothing. -/
theorem claim_C3_witness :
    extract monAddr failedDepositTx = none ∧
    (handleIncomingTransaction monAddr neverFails emptyState failedDepositTx).dispatched =
      emptyState.dispatched :=
  claim_C3_failed_tx monAddr neverFails emptyState failedDepositTx (by decide)

/-- C4: the scan runs over the top-level instructions followed by the inner
instruction groups in order; when that concatenation splits as a prefix with
no matching transfer, then a matching transfer, then anything, exactly the
first match is dispatched — later matching transfers in the same record
produce no further handler invocation. -/
theorem claim_C4_first_match_only (addr s : String) (hf : DepositEvent → Bool)
    (st : MonitorState) (tx : RawTransaction)
    (pre suf : List Instruction) (m : Instruction) (i : ParsedInfo)
    (hsig : extractSignature tx = s) (hne : s ≠ "")
    (hfresh : s ∉ st.processedSignatures) (herr : metaErr tx = false)
    (hconcat : mainInstrs tx ++ innerInstrs tx = pre ++ m :: suf)
    (hpre : ∀ p ∈ pre, isMatchingTransfer addr p = false)
    (hm : m.programId = systemProgramId)
    (hparsed : m.parsed = some { ty := "transfer", info := some i })
    (hdest : i.destination = addr) :
    extract addr tx = some i ∧
    (handleIncomingTransaction addr hf st tx).dispatched =
      st.dispatched ++
        [{ signature := s, userPublicKey := i.source, amount := i.lamports }] := by
  have hall : allInstrs tx = pre ++ m :: suf := hconcat
  have hscan : scanInstructions addr (allInstrs tx) false = .matched i := by
    rw [hall]
    exact scanInstructions_first_match addr pre suf m i hpre hm hparsed hdest false
  have hex : extract addr tx = some i := (extract_eq_some addr tx i).mpr ⟨herr, hscan⟩
  refine ⟨hex, ?_⟩
  rw [handleIncomingTransaction_matched addr hf st tx i s hsig hne hfresh hex]

/-- A record with a non-matching transfer at the top level and two matching
transfers in an inner instruction group. -/
def multiTransferTx : RawTransaction :=
  { transaction := some { signatures := ["sigM"],
                          message := { instructions := [transferInstr "OtherAddr11111111111111111111111" senderA 1] } },
    signatures := none, signature := none,
    meta := some { err := false,
                   innerInstructions := [{ instructions := some [transferInstr monAddr "SenderX1111111111111111111111111" 700, transferInstr monAddr "SenderY1111111111111111111111111" 900] }] } }

/-- C4 witness: of the two matching inner transfers (700 then 900 lamports),
only the first is dispatched. -/
theorem claim_C4_witness :
    extract monAddr multiTransferTx =
      some { destination := monAddr, source := "SenderX1111111111111111111111111",
             lamports := 700 } ∧
    (handleIncomingTransaction monAddr neverFails emptyState multiTransferTx).dispatched =
      emptyState.dispatched ++
        [{ signature := "sigM", userPublicKey := "SenderX1111111111111111111111111", amount := 700 }] :=
  claim_C4_first_match_only monAddr "sigM" neverFails emptyState multiTransferTx
    [transferInstr "OtherAddr11111111111111111111111" senderA 1]
    [transferInstr monAddr "SenderY1111111111111111111111111" 900]
    (transferInstr monAddr "SenderX1111111111111111111111111" 700)
    { destination := monAddr, source := "SenderX1111111111111111111111111", lamports := 700 }
    (by decide) (by decide) (by decide) (by decide) (by decide)
    (by decide) (by decide) (by decide) (by decide)

/-- C6: when the handler rejects a dispatched event, the failure is logged,
the signature stays recorded as processed, and neither the push path nor the
polling path ever invokes the handler again for that signature — the state no
longer changes for it. -/
theorem claim_C6_handler_failure (addr s : String) (hf : DepositEvent → Bool)
    (st : MonitorState) (tx : RawTransaction) (i : ParsedInfo)
    (hsig : extractSignature tx = s) (hne : s ≠ "")
    (hfresh : s ∉ st.processedSignatures)
    (hex : extract addr tx = some i)
    (hfail : hf { signature := s, userPublicKey := i.source, amount := i.lamports } = true) :
    ({ signature := s, userPublicKey := i.source, amount := i.lamports } : DepositEvent) ∈
      (handleIncomingTransaction addr hf st tx).failureLog ∧
    s ∈ (handleIncomingTransaction addr hf st tx).processedSignatures ∧
    (∀ tx' : RawTransaction, extractSignature tx' = s →
      handleIncomingTransaction addr hf (handleIncomingTransaction addr hf st tx) tx' =
        handleIncomingTransaction addr hf st tx) ∧
    (∀ tx' : RawTransaction,
      pollDeliver addr hf (handleIncomingTransaction addr hf st tx) s tx' =
        handleIncomingTransaction addr hf st tx) := by
  have hstep := handleIncomingTransaction_matched addr hf st tx i s hsig hne hfresh hex
  have hmem : s ∈ (handleIncomingTransaction addr hf st tx).processedSignatures := by
    rw [hstep]; exact mem_trimLedger_self _ _
  refine ⟨?_, hmem, ?_, ?_⟩
  · rw [hstep]; simp [hfail]
  · intro tx' h'
    exact handleIncomingTransaction_skip addr hf _ tx' (by rw [h']; exact hmem)
  · intro tx'
    simp [pollDeliver, hmem]

/-- C6 witness: a deposit whose handler rejects is logged as failed and its
signature stays processed. -/
theorem claim_C6_witness :
    ({ signature := "sigC", userPublicKey := senderA, amount := 400 } : DepositEvent) ∈
      (handleIncomingTransaction monAddr alwaysFails emptyState (depositTx "sigC" 400)).failureLog ∧
    "sigC" ∈
      (handleIncomingTransaction monAddr alwaysFails emptyState (depositTx "sigC" 400)).processedSignatures := by
  have h := claim_C6_handler_failure monAddr "sigC" alwaysFails emptyState
    (depositTx "sigC" 400)
    { destination := monAddr, source := senderA, lamports := 400 }
    (by decide) (by decide) (by decide) (by decide) (by decide)
  exact ⟨h.1, h.2.1⟩

/-!
C5 machinery.  The capacity trim runs only on the dispatch path
(`if (this.processedSignatures.size > 1000) { ... }` sits inside the
matching-transfer branch); the `meta.err` path, the no-transfer path and the
error path add the signature without any trim.  Driving 1001 distinct failed
records through the pipeline therefore grows the ledger to 1001 entries and
evicts nothing.
-/

/-- The n-th distinct test signature: the nonempty string of n+1 letters. -/
def mkSig (n : Nat) : String := String.mk (List.replicate (n + 1) 'a')

/-- A failed (`meta.err` truthy) record carrying the given signature in its
top-level `signature` field. -/
def errTxOf (s : String) : RawTransaction :=
  { transaction := none, signatures := none, signature := some s,
    meta := some { err := true, innerInstructions := [] } }

/-- Distinct indices give distinct test signatures. -/
theorem mkSig_injective : Function.Injective mkSig := by
  intro a b h
  have h2 : List.replicate (a + 1) 'a' = List.replicate (b + 1) 'a' := by
    have h1 := congrArg String.data h
    simpa [mkSig] using h1
  have h3 := congrArg List.length h2
  simpa using h3

/-- Test signatures are nonempty. -/
theorem mkSig_ne_empty (n : Nat) : mkSig n ≠ "" := by
  intro h
  have h2 := congrArg String.data h
  simp [mkSig] at h2

/-- The signature of a failed test record is the one it was built from. -/
theorem extractSignature_errTxOf (s : String) : extractSignature (errTxOf s) = s := by
  simp [extractSignature, errTxOf, jsOrS]

/-- Driving failed records with fresh pairwise-distinct signatures through the
pipeline appends every one of those signatures to the ledger — no trim ever
runs on this path. -/
theorem processAll_errTxs (addr : String) (hf : DepositEvent → Bool) :
    ∀ (sigs : List String) (st : MonitorState),
      (∀ s ∈ sigs, s ≠ "") → sigs.Nodup →
      (∀ s ∈ sigs, s ∉ st.processedSignatures) →
      processAll addr hf st (sigs.map errTxOf) =
        { st with processedSignatures := st.processedSignatures ++ sigs } := by
  intro sigs
  induction sigs with
  | nil => intro st _ _ _; simp [processAll]
  | cons s rest ih =>
    intro st hne hnd hdisj
    have hstep : handleIncomingTransaction addr hf st (errTxOf s) =
        { st with processedSignatures := st.processedSignatures ++ [s] } :=
      handleIncomingTransaction_err addr hf st (errTxOf s) s
        (extractSignature_errTxOf s) (hne s (List.mem_cons_self s rest))
        (hdisj s (List.mem_cons_self s rest)) rfl
    have hrest : processAll addr hf st ((s :: rest).map errTxOf) =
        processAll addr hf
          { st with processedSignatures := st.processedSignatures ++ [s] }
          (rest.map errTxOf) := by
      simp only [List.map_cons, processAll, List.foldl_cons]
      rw [show List.foldl (handleIncomingTransaction addr hf) (handleIncomingTransaction addr hf st (errTxOf s)) (rest.map errTxOf) = List.foldl (handleIncomingTransaction addr hf) ({ st with processedSignatures := st.processedSignatures ++ [s] }) (rest.map errTxOf) from by rw [hstep]]
    rw [hrest, ih]
    · simp
    · intro q hq; exact hne q (List.mem_cons_of_mem s hq)
    · exact hnd.of_cons
    · intro q hq
      simp only [List.mem_append, List.mem_singleton]
      rintro (hql | hqs)
      · exact hdisj q (List.mem_cons_of_mem s hq) hql
      · exact (List.nodup_cons.mp hnd).1 (hqs ▸ hq)

/-- The 1001 distinct failed records of the C5 counterexample. -/
def overflowSigs : List String := (List.range 1001).map mkSig

/-- The final state after driving the 1001 failed records through the
pipeline from the initial state. -/
def overflowFinal : MonitorState :=
  processAll monAddr neverFails emptyState (overflowSigs.map errTxOf)

/-- C5 counterexample: after inserting 1001 distinct signatures through the
pipeline (here via failed records), the ledger holds 1001 entries — above the
configured capacity of 1000 — and the first-inserted signature is still
present, so no eviction took place. -/
theorem claim_C5_counterexample :
    overflowFinal.processedSignatures.length = 1001 ∧
    mkSig 0 ∈ overflowFinal.processedSignatures := by
  have hrun : overflowFinal =
      { emptyState with processedSignatures := emptyState.processedSignatures ++ overflowSigs } := by
    apply processAll_errTxs monAddr neverFails overflowSigs emptyState
    · intro s hs
      obtain ⟨n, -, rfl⟩ := List.mem_map.mp hs
      exact mkSig_ne_empty n
    · exact (List.nodup_range 1001).map mkSig_injective
    · intro s _ hs
      simp [emptyState] at hs
  rw [hrun]
  constructor
  · simp [emptyState, overflowSigs]
  · simp only [emptyState, List.nil_append]
    exact List.mem_map_of_mem mkSig (by simp : 0 ∈ List.range 1001)

/-- C5 (amended): on the dispatch path the capacity bound and insertion-order
eviction do hold: a matching record arriving with the ledger at its capacity
of 1000 evicts exactly the oldest-inserted signature, appends the new one, and
leaves the ledger at 1000 entries. -/
theorem claim_C5_amended_dispatch_eviction (addr s : String) (hf : DepositEvent → Bool)
    (st : MonitorState) (tx : RawTransaction) (i : ParsedInfo)
    (old : String) (rest : List String)
    (hsig : extractSignature tx = s) (hne : s ≠ "")
    (hfresh : s ∉ st.processedSignatures)
    (hex : extract addr tx = some i)
    (hst : st.processedSignatures = old :: rest)
    (hlen : rest.length = 999)
    (hold : old ∉ rest) :
    (handleIncomingTransaction addr hf st tx).processedSignatures = rest ++ [s] ∧
    (handleIncomingTransaction addr hf st tx).processedSignatures.length = 1000 ∧
    old ∉ (handleIncomingTransaction addr hf st tx).processedSignatures := by
  have hstep := handleIncomingTransaction_matched addr hf st tx i s hsig hne hfresh hex
  have hold_ne : old ≠ s := by
    intro h
    exact hfresh (h ▸ (hst ▸ List.mem_cons_self old rest))
  have hproc : (handleIncomingTransaction addr hf st tx).processedSignatures =
      rest ++ [s] := by
    rw [hstep]
    simp only [hst]
    unfold trimLedger
    rw [if_pos (by simp [hlen])]
    simp
  refine ⟨hproc, by rw [hproc]; simp [hlen], ?_⟩
  rw [hproc]
  simp only [List.mem_append, List.mem_singleton]
  rintro (h | h)
  · exact hold h
  · exact hold_ne h

/-- A full ledger of 1000 distinct signatures, oldest first. -/
def restLedger : List String := (List.range 999).map fun n => mkSig (n + 1)

/-- The monitor state whose ledger is exactly at capacity. -/
def ledgerState : MonitorState :=
  { processedSignatures := mkSig 0 :: restLedger, dispatched := [], failureLog := [] }

/-- A matching deposit record with a signature distinct from every ledger
entry. -/
def witnessDepositTx : RawTransaction :=
  { transaction := some { signatures := [mkSig 1000],
                          message := { instructions := [transferInstr monAddr senderA 600] } },
    signatures := none, signature := none,
    meta := some { err := false, innerInstructions := [] } }

/-- Every test signature differs from an index outside its range. -/
theorem mkSig_not_mem_restLedger : mkSig 1000 ∉ restLedger := by
  intro h
  obtain ⟨n, hn, heq⟩ := List.mem_map.mp h
  have := mkSig_injective heq
  simp at hn
  omega

/-- The oldest ledger entry is not among the younger ones. -/
theorem mkSig_zero_not_mem_restLedger : mkSig 0 ∉ restLedger := by
  intro h
  obtain ⟨n, -, heq⟩ := List.mem_map.mp h
  have := mkSig_injective heq
  omega

/-- The fresh witness signature is not in the full ledger. -/
theorem mkSig_fresh_ledgerState : mkSig 1000 ∉ ledgerState.processedSignatures := by
  intro h
  simp only [ledgerState, List.mem_cons] at h
  rcases h with h | h
  · have := mkSig_injective h
    omega
  · exact mkSig_not_mem_restLedger h

/-- The witness record carries the fresh signature. -/
theorem extractSignature_witnessDepositTx :
    extractSignature witnessDepositTx = mkSig 1000 := by
  simp [extractSignature, witnessDepositTx, jsOrS, mkSig_ne_empty 1000]

/-- The witness record extracts to its single matching transfer. -/
theorem extract_witnessDepositTx :
    extract monAddr witnessDepositTx =
      some { destination := monAddr, source := senderA, lamports := 600 } := by
  have : scanInstructions monAddr (allInstrs witnessDepositTx) false =
      .matched { destination := monAddr, source := senderA, lamports := 600 } := by
    simp [allInstrs, mainInstrs, innerInstrs, witnessDepositTx, scanInstructions,
      transferInstr, systemProgramId, monAddr]
  exact (extract_eq_some monAddr witnessDepositTx _).mpr ⟨rfl, this⟩

/-- C5 (amended) witness: the matching witness record arriving at a full
ledger evicts exactly the oldest signature and keeps the ledger at 1000. -/
theorem claim_C5_witness :
    (handleIncomingTransaction monAddr neverFails ledgerState witnessDepositTx).processedSignatures =
      restLedger ++ [mkSig 1000] ∧
    (handleIncomingTransaction monAddr neverFails ledgerState witnessDepositTx).processedSignatures.length =
      1000 ∧
    mkSig 0 ∉
      (handleIncomingTransaction monAddr neverFails ledgerState witnessDepositTx).processedSignatures :=
  claim_C5_amended_dispatch_eviction monAddr (mkSig 1000) neverFails ledgerState
    witnessDepositTx { destination := monAddr, source := senderA, lamports := 600 }
    (mkSig 0) restLedger
    extractSignature_witnessDepositTx (mkSig_ne_empty 1000)
    mkSig_fresh_ledgerState extract_witnessDepositTx rfl
    (by simp [restLedger]) mkSig_zero_not_mem_restLedger

/-- C9 (amended): every event passed to the handler originates from a transfer
instruction whose destination equals the monitored address, and it carries
that instruction's source and lamports unvalidated — in particular the amount
is not checked to be positive. -/
theorem claim_C9_amended_destination (addr s : String) (hf : DepositEvent → Bool)
    (st : MonitorState) (tx : RawTransaction) (i : ParsedInfo)
    (hsig : extractSignature tx = s) (hne : s ≠ "")
    (hfresh : s ∉ st.processedSignatures)
    (hex : extract addr tx = some i) :
    i.destination = addr ∧
    (handleIncomingTransaction addr hf st tx).dispatched =
      st.dispatched ++
        [{ signature := s, userPublicKey := i.source, amount := i.lamports }] := by
  obtain ⟨herr, hscan⟩ := (extract_eq_some addr tx i).mp hex
  obtain ⟨hdest, -⟩ := scanInstructions_matched_sound addr (allInstrs tx) false i hscan
  refine ⟨hdest, ?_⟩
  rw [handleIncomingTransaction_matched addr hf st tx i s hsig hne hfresh hex]

/-- C9 counterexample: a zero-lamport transfer to the monitored address is
dispatched to the handler with amount 0 — the claimed invariant `amount > 0`
fails on the code, which never validates the amount. -/
theorem claim_C9_counterexample :
    (handleIncomingTransaction monAddr neverFails emptyState (depositTx "sigZ" 0)).dispatched =
      [{ signature := "sigZ", userPublicKey := senderA, amount := 0 }] ∧
    ¬ 0 < ({ signature := "sigZ", userPublicKey := senderA, amount := 0 } : DepositEvent).amount := by
  decide

/-- C9 (amended) witness: the 450-lamport deposit event carries the
instruction's destination (the monitored address) and exact values. -/
theorem claim_C9_witness :
    ({ destination := monAddr, source := senderA, lamports := 450 } : ParsedInfo).destination =
      monAddr ∧
    (handleIncomingTransaction monAddr neverFails emptyState (depositTx "sigD" 450)).dispatched =
      emptyState.dispatched ++
        [{ signature := "sigD", userPublicKey := senderA, amount := 450 }] :=
  claim_C9_amended_destination monAddr "sigD" neverFails emptyState (depositTx "sigD" 450)
    { destination := monAddr, source := senderA, lamports := 450 }
    (by decide) (by decide) (by decide) (by decide)

/-- C10 (amended): a fresh, usable signature whose record fails
(`meta.err` truthy) or whose scan finds no transfer instruction at all is
added to the ledger without any dispatch, and the transaction is never
re-examined by either path; but — contrary to the original claim — a record
whose scan finds a transfer instruction that does not target the monitored
address is NOT recorded (see the counterexample). -/
theorem claim_C10_amended (addr s : String) (hf : DepositEvent → Bool)
    (st : MonitorState) (tx : RawTransaction)
    (hsig : extractSignature tx = s) (hne : s ≠ "")
    (hfresh : s ∉ st.processedSignatures)
    (hpath : metaErr tx = true ∨
      (metaErr tx = false ∧
        scanInstructions addr (allInstrs tx) false = .noMatch false)) :
    s ∈ (handleIncomingTransaction addr hf st tx).processedSignatures ∧
    (handleIncomingTransaction addr hf st tx).dispatched = st.dispatched ∧
    (∀ tx' : RawTransaction, extractSignature tx' = s →
      handleIncomingTransaction addr hf (handleIncomingTransaction addr hf st tx) tx' =
        handleIncomingTransaction addr hf st tx) ∧
    (∀ tx' : RawTransaction,
      pollDeliver addr hf (handleIncomingTransaction addr hf st tx) s tx' =
        handleIncomingTransaction addr hf st tx) := by
  have hstep : handleIncomingTransaction addr hf st tx =
      { st with processedSignatures := st.processedSignatures ++ [s] } := by
    rcases hpath with herr | ⟨herr, hscan⟩
    · exact handleIncomingTransaction_err addr hf st tx s hsig hne hfresh herr
    · exact handleIncomingTransaction_noTransfer addr hf st tx s hsig hne hfresh herr hscan
  have hmem : s ∈ (handleIncomingTransaction addr hf st tx).processedSignatures := by
    rw [hstep]; simp
  refine ⟨hmem, by rw [hstep], ?_, ?_⟩
  · intro tx' h'
    exact handleIncomingTransaction_skip addr hf _ tx' (by rw [h']; exact hmem)
  · intro tx'
    simp [pollDeliver, hmem]

/-- A successful record whose only transfer instruction targets a different
address than the monitored one. -/
def otherAddrTx : RawTransaction :=
  { transaction := some { signatures := ["sigO"],
                          message := { instructions := [transferInstr "OtherAddr11111111111111111111111" senderA 500] } },
    signatures := none, signature := none,
    meta := some { err := false, innerInstructions := [] } }

/-- C10 counterexample: a record with a usable signature and no dispatch — its
only transfer targets another address — leaves the ledger untouched: the
signature is NOT added, so the transaction will be re-examined (the code only
records the signature when `foundTransfer` stayed false, and a transfer to a
foreign address sets that flag). -/
theorem claim_C10_counterexample :
    extractSignature otherAddrTx = "sigO" ∧
    (handleIncomingTransaction monAddr neverFails emptyState otherAddrTx).dispatched = [] ∧
    "sigO" ∉
      (handleIncomingTransaction monAddr neverFails emptyState otherAddrTx).processedSignatures := by
  decide

/-- A successful record with no instructions at all. -/
def noInstrTx : RawTransaction :=
  { transaction := some { signatures := ["sigN"], message := { instructions := [] } },
    signatures := none, signature := none,
    meta := some { err := false, innerInstructions := [] } }

/-- C10 (amended) witness: a record with no instructions is recorded in the
ledger with no dispatch. -/
theorem claim_C10_witness :
    "sigN" ∈
      (handleIncomingTransaction monAddr neverFails emptyState noInstrTx).processedSignatures ∧
    (handleIncomingTransaction monAddr neverFails emptyState noInstrTx).dispatched =
      emptyState.dispatched := by
  have h := claim_C10_amended monAddr "sigN" neverFails emptyState noInstrTx
    (by decide) (by decide) (by decide) (Or.inr ⟨by decide, by decide⟩)
  exact ⟨h.1, h.2.1⟩

/-- C7: `stop()` on a connected monitor does close the socket and clear the
polling interval — but the reconnect timeout's handle is never stored, so it
cannot be cancelled, and the very close initiated by `stop()` fires the
socket's `close` handler, which schedules a reconnect; when that timeout
fires, `startHeliusMonitoring()` re-establishes the connection, the
subscription and the polling interval.  This evaluates the lifecycle model on
that failing trace: after `stop()`, the close event, and the 5-second timer,
the monitor is connected and polling again. -/
theorem claim_C7_stop_reconnects :
    stopStep runningLifecycle =
      { wsActive := false, isReconnecting := false, pollingActive := false,
        reconnectPending := false } ∧
    reconnectTimerFires (wsCloseEvent (stopStep runningLifecycle)) =
      { wsActive := true, isReconnecting := true, pollingActive := true,
        reconnectPending := false } := by
  decide

/-- C8 (amended): the polling interval's callback starts on every timer fire —
the code keeps no in-progress flag, so a tick that is still running when the
next interval elapses does not cause that next tick to be skipped: after n
consecutive timer fires with no tick completing, n ticks are running at
once. -/
theorem claim_C8_amended_no_skip (st : PollState) (n : Nat) :
    (pollRun st (List.replicate n PollEv.fire)).activeTicks = st.activeTicks + n := by
  induction n generalizing st with
  | zero => simp [pollRun]
  | succ k ih =>
    rw [List.replicate_succ]
    show (pollRun (pollStep st .fire) (List.replicate k PollEv.fire)).activeTicks = _
    rw [ih]
    simp [pollStep]
    omega

/-- C8 counterexample: with one tick still in flight (no `finish` event
intervenes), the next timer fire starts a second tick — two polling ticks run
overlapped, so the second tick is not skipped. -/
theorem claim_C8_counterexample :
    (pollRun { activeTicks := 0 } [PollEv.fire, PollEv.fire]).activeTicks = 2 := by
  decide
